import Mathlib

/-!
Verification development for the BitCarr persistence layer (`opsdata.js`,
the deduplicated second copy of the file, plus the serverless collection
endpoint `api/store/[collection].js`).

Records are JavaScript objects modelled as association lists from string
keys to scalar JSON values; collections are lists of records.  The local
persistence facade (IndexedDB with a localStorage fallback), the remote
sync wrappers, the domain API and the serverless POST handler are embedded
as pure state-passing functions; per-call backend availability and the
outcome of each network request are passed in explicitly.
-/

set_option autoImplicit false

namespace BitCarr

/-- A scalar JSON value as stored in a record field. -/
inductive Val where
  | vNull
  | vBool (b : Bool)
  | vNum (n : Int)
  | vStr (s : String)
  deriving Repr, DecidableEq

/-- A JavaScript object: ordered association list of fields (keys unique
in practice; operations below keep the first binding authoritative, as
property lookup does). -/
abbrev Record := List (String × Val)

/-- JavaScript truthiness of a value (`undefined`, `null`, `false`, `0`
and `""` are falsy). -/
def truthy : Val → Bool
  | .vNull => false
  | .vBool b => b
  | .vNum n => n ≠ 0
  | .vStr s => s ≠ ""

/-- Property read `o.k`: the first binding of key `k`, `none` for
`undefined`. -/
def objGet (o : Record) (k : String) : Option Val :=
  (o.find? (fun p => p.1 = k)).map (fun p => p.2)

/-- `o.k` is present and truthy (`if (o.k)`). -/
def objTruthy (o : Record) (k : String) : Bool :=
  match objGet o k with
  | some v => truthy v
  | none => false

/-- Property write `o.k = v`: replaces the value of an existing key in
place, otherwise appends the new binding. -/
def objSet : Record → String → Val → Record
  | [], k, v => [(k, v)]
  | p :: t, k, v => if p.1 = k then (k, v) :: t else p :: objSet t k v

/-- `Object.assign(target, src)` (also the object-literal spread
`{...target, ...src}`): copies every field of `src` into `target` in
order, later bindings overriding earlier ones. -/
def objAssign (target src : Record) : Record :=
  src.foldl (fun t p => objSet t p.1 p.2) target

/-- `o` has a binding for key `k`. -/
def hasKey (o : Record) (k : String) : Bool :=
  (o.find? (fun p => p.1 = k)).isSome

@[simp] theorem objGet_nil (k : String) : objGet [] k = none := rfl

theorem objGet_cons (p : String × Val) (o : Record) (k : String) :
    objGet (p :: o) k = if p.1 = k then some p.2 else objGet o k := by
  by_cases h : p.1 = k <;> simp [objGet, List.find?, h]

@[simp] theorem hasKey_nil (k : String) : hasKey [] k = false := rfl

theorem hasKey_cons (p : String × Val) (o : Record) (k : String) :
    hasKey (p :: o) k = (p.1 = k || hasKey o k) := by
  by_cases h : p.1 = k <;> simp [hasKey, List.find?, h]

theorem objGet_isSome_iff_hasKey (o : Record) (k : String) :
    (objGet o k).isSome = hasKey o k := by
  simp [objGet, hasKey]
/-- Setting a key then reading it back gives the written value. -/
theorem objGet_objSet_same (o : Record) (k : String) (v : Val) :
    objGet (objSet o k v) k = some v := by
  induction o with
  | nil => simp [objSet, objGet_cons]
  | cons p t ih =>
    by_cases hp : p.1 = k
    · simp [objSet, hp, objGet_cons]
    · simp [objSet, hp, objGet_cons, ih]

/-- Setting one key leaves every other key unchanged. -/
theorem objGet_objSet_other (o : Record) (k k' : String) (v : Val)
    (hne : k ≠ k') : objGet (objSet o k v) k' = objGet o k' := by
  induction o with
  | nil => simp [objSet, objGet_cons, hne]
  | cons p t ih =>
    by_cases hp : p.1 = k
    · subst hp
      simp [objSet, objGet_cons, hne]
    · simp only [objSet, if_neg hp]
      rw [objGet_cons, objGet_cons]
      by_cases hp' : p.1 = k'
      · simp [hp']
      · simp [hp', ih]

@[simp] theorem objAssign_nil (t : Record) : objAssign t [] = t := rfl

theorem objAssign_cons (t : Record) (p : String × Val) (src : Record) :
    objAssign t (p :: src) = objAssign (objSet t p.1 p.2) src := rfl

/-- Reading a key that `src` does not bind after a merge reads the target. -/
theorem objGet_objAssign_not_in_src (t src : Record) (k : String)
    (h : hasKey src k = false) :
    objGet (objAssign t src) k = objGet t k := by
  induction src generalizing t with
  | nil => rfl
  | cons p ps ih =>
    rw [hasKey_cons] at h
    simp only [Bool.or_eq_false_iff, decide_eq_false_iff_not] at h
    rw [objAssign_cons, ih _ h.2, objGet_objSet_other _ _ _ _ h.1]

theorem objAssign_append (t s₁ s₂ : Record) :
    objAssign t (s₁ ++ s₂) = objAssign (objAssign t s₁) s₂ := by
  simp [objAssign, List.foldl_append]

/-- The four collection names, in the order the source iterates them. -/
def STORES : List String := ["users", "vehicles", "requests", "movements"]

/-- `x.id === id` for a numeric `id` argument. -/
def idEq (x : Record) (id : Int) : Bool :=
  objGet x "id" = some (.vNum id)

/-- `x.id === k` for an arbitrary key value (strict equality). -/
def keyEq (x : Record) (k : Val) : Bool :=
  objGet x "id" = some k

theorem keyEq_num (x : Record) (n : Int) : keyEq x (.vNum n) = idEq x n := rfl

/-- A value usable as an IndexedDB key: numbers and strings are valid
keys; booleans and `null` are not (`DataError`). -/
def validKey : Val → Bool
  | .vNum _ => true
  | .vStr _ => true
  | _ => false

/-- The key generator after storing an explicit key: a numeric key pushes
the generator past itself, any other valid key leaves it. -/
def keyBump (nk : Int) : Val → Int
  | .vNum n => max nk (n + 1)
  | _ => nk

/-- State of one IndexedDB object store created with `keyPath: 'id'` and
`autoIncrement: true`: the stored records plus the key generator. -/
structure IdbCol where
  recs : List Record
  nextKey : Int
  deriving Repr, DecidableEq

/-- A fresh object store: no records, key generator at 1. -/
def IdbCol.empty : IdbCol := { recs := [], nextKey := 1 }

/-- `objectStore.put(value)` under `keyPath: 'id'` with autoIncrement:
an explicit valid `id` (number or string) is used as the key, overwriting
the record stored at that key; a numeric key additionally pushes the key
generator past itself.  An absent `id` draws the next generated key and
injects it into the stored value.  A present invalid key (boolean, null)
is a `DataError`, modelled as `none`, which the facade's `.catch` turns
into a flat-store attempt. -/
def idbPut (c : IdbCol) (v : Record) : Option (IdbCol × Val) :=
  match objGet v "id" with
  | some k =>
      if validKey k then
        let recs' :=
          if (c.recs.find? (fun x => keyEq x k)).isSome then
            c.recs.map (fun x => if keyEq x k then v else x)
          else
            c.recs ++ [v]
        some ({ recs := recs', nextKey := keyBump c.nextKey k }, k)
      else
        none
  | none =>
      let v' := objSet v "id" (.vNum c.nextKey)
      some ({ recs := c.recs ++ [v'], nextKey := c.nextKey + 1 }, .vNum c.nextKey)

/-- `objectStore.delete(id)`: removes the record stored at that key; the
key generator is untouched. -/
def idbDelete (c : IdbCol) (id : Int) : IdbCol :=
  { recs := c.recs.filter (fun x => !(idEq x id)), nextKey := c.nextKey }

/-- `objectStore.clear()`: removes every record; the key generator is not
reset. -/
def idbClear (c : IdbCol) : IdbCol :=
  { recs := [], nextKey := c.nextKey }

/-- Per-collection local state: the IndexedDB object store plus the parsed
`localStorage` array stored under `ops_<collection>` (`[]` when the key is
absent). -/
structure StoreState where
  idb : IdbCol
  ls : List Record
  deriving Repr, DecidableEq

/-- Facade `getAll(store)`: full scan of the structured store; any failure
(modelled by `idbOk = false`) falls back to the parsed localStorage
array. -/
def getAllF (idbOk : Bool) (st : StoreState) : List Record :=
  if idbOk then st.idb.recs else st.ls

/-- `x.id || 0` for a record whose `id` is numeric, absent or falsy —
the shapes this layer itself writes.  A truthy non-numeric id would be
returned as-is by `||` and then coerced by `Math.max` (`'7'` → 7, `true`
→ 1, `'abc'` → NaN); such records are outside this function's fidelity,
so every theorem that relies on it assumes `numericId` of the list. -/
def idOr0 (x : Record) : Int :=
  match objGet x "id" with
  | some (.vNum n) => n
  | _ => 0

/-- The record's `id` is numeric, absent, or falsy — exactly the shapes
on which `x.id || 0` is the numeric-id-or-0 that `idOr0` computes. -/
def numericId (x : Record) : Bool :=
  match objGet x "id" with
  | some (.vNum _) => true
  | some v => !(truthy v)
  | none => true

/-- `Math.max(...list.map(x => x.id || 0))` on a non-empty list (the
caller guards emptiness); faithful over lists of `numericId` records
(see `idOr0`). -/
def maxId : List Record → Int
  | [] => 0
  | x :: xs => xs.foldl (fun m y => max m (idOr0 y)) (idOr0 x)

/-- The flat (localStorage) fallback body of `put`: assigns
`max(existing ids) + 1` (or 1 on an empty list) when the record's `id` is
absent or falsy, appends, and persists the whole array.  Returns the new
array and `value.id`. -/
def flatPut (l : List Record) (v : Record) : List Record × Val :=
  let v' := if objTruthy v "id" then v
            else objSet v "id" (.vNum (if l.isEmpty then 1 else maxId l + 1))
  (l ++ [v'], (objGet v' "id").getD .vNull)

/-- `value.createdAt = value.createdAt || now` at the top of `put`. -/
def stampCreatedAt (v : Record) (now : String) : Record :=
  if objTruthy v "createdAt" then v else objSet v "createdAt" (.vStr now)

/-- Facade `put(store, value)`: stamps `createdAt` when absent or falsy,
then writes to the structured store; any structured failure falls back to
the flat store.  Returns the new state and the resolved key. -/
def putF (idbOk : Bool) (st : StoreState) (v : Record) (now : String) :
    StoreState × Val :=
  let v' := stampCreatedAt v now
  if idbOk then
    match idbPut st.idb v' with
    | some (c, key) => ({ st with idb := c }, key)
    | none =>
        let (l, r) := flatPut st.ls v'
        ({ st with ls := l }, r)
  else
    let (l, r) := flatPut st.ls v'
    ({ st with ls := l }, r)

/-- `Object.assign(item, patch, { updatedAt: now })`: the merged record
an update writes back. -/
def mkUpdated (item patch : Record) (now : String) : Record :=
  objAssign (objAssign item patch) [("updatedAt", .vStr now)]

/-- Replace the first record matching `id` (the object found by
`list.find` is mutated in place, so exactly the first match changes). -/
def replaceFirst : List Record → Int → Record → List Record
  | [], _, _ => []
  | x :: xs, id, v => if idEq x id then v :: xs else x :: replaceFirst xs id v

/-- Facade `update(store, id, patch)`: reads the full list, finds the
record by strict id equality, merges `patch` then an `updatedAt` stamp
into it, and writes it back — to the structured store, or on failure by
persisting the whole mutated array to the flat store.  Returns `false`
(state unchanged) when no record matches. -/
def updateF (idbOkRead idbOkWrite : Bool) (st : StoreState) (id : Int)
    (patch : Record) (now : String) : StoreState × Bool :=
  let list := getAllF idbOkRead st
  match list.find? (fun x => idEq x id) with
  | none => (st, false)
  | some item =>
      let item' := mkUpdated item patch now
      if idbOkWrite then
        match idbPut st.idb item' with
        | some (c, _) => ({ st with idb := c }, true)
        | none => ({ st with ls := replaceFirst list id item' }, true)
      else
        ({ st with ls := replaceFirst list id item' }, true)

/-- Facade `remove(store, id)`: reads the full list, finds the index of
the record by strict id equality, and deletes it from the structured
store, or on failure splices it out of the array and persists to the flat
store.  Returns `false` (state unchanged) when no record matches. -/
def removeF (idbOkRead idbOkWrite : Bool) (st : StoreState) (id : Int) :
    StoreState × Bool :=
  let list := getAllF idbOkRead st
  match list.findIdx? (fun x => idEq x id) with
  | none => (st, false)
  | some idx =>
      if idbOkWrite then
        ({ st with idb := idbDelete st.idb id }, true)
      else
        ({ st with ls := list.eraseIdx idx }, true)

/-- Facade `clearStore(store)`: clears the structured store, or on failure
removes the flat key (a later read of the absent key parses to `[]`). -/
def clearF (idbOk : Bool) (st : StoreState) : StoreState :=
  if idbOk then { st with idb := idbClear st.idb } else { st with ls := [] }

/-- The whole local database: one `StoreState` per collection. -/
structure AllState where
  users : StoreState
  vehicles : StoreState
  requests : StoreState
  movements : StoreState
  deriving Repr, DecidableEq

/-- The collection named `s` (only the four names of `STORES` are ever
passed). -/
def getCol (a : AllState) : String → StoreState
  | "users" => a.users
  | "vehicles" => a.vehicles
  | "requests" => a.requests
  | _ => a.movements

/-- Replace the collection named `s`. -/
def setCol (a : AllState) (s : String) (c : StoreState) : AllState :=
  match s with
  | "users" => { a with users := c }
  | "vehicles" => { a with vehicles := c }
  | "requests" => { a with requests := c }
  | _ => { a with movements := c }

/-- `exportAll()`: maps each collection name to its `getAll` result. -/
def exportAllF (idbOk : Bool) (a : AllState) : List (String × List Record) :=
  STORES.map (fun s => (s, getAllF idbOk (getCol a s)))

/-- `obj[s] || []` on the (already parsed) imported mapping. -/
def lookupArr (data : List (String × List Record)) (s : String) : List Record :=
  match data.find? (fun p => p.1 = s) with
  | some p => p.2
  | none => []

/-- Clear all four collections (the first phase of `importAll`, also the
"clear of all collections" step of the round-trip property). -/
def clearAllF (idbOk : Bool) (a : AllState) : AllState :=
  STORES.foldl (fun acc s => setCol acc s (clearF idbOk (getCol acc s))) a

/-- `importAll(data)` on a parsed mapping: clears all four collections,
then re-inserts every record collection-by-collection, record-by-record
via `put`.  (`idbOk` models the structured backend's availability over
the whole bulk operation.) -/
def importAllF (idbOk : Bool) (now : String) (a : AllState)
    (data : List (String × List Record)) : AllState :=
  let cleared := clearAllF idbOk a
  STORES.foldl
    (fun acc s =>
      setCol acc s
        ((lookupArr data s).foldl (fun c item => (putF idbOk c item now).1)
          (getCol acc s)))
    cleared

/-- Decimal digit character. -/
def digitChar (d : Nat) : Char := Char.ofNat (48 + d)

/-- Decimal digit characters of `n`, most significant first, with
explicit fuel (any `fuel ≥ n` computes the full rendering; the wrapper
below passes `n` itself). -/
def natCharsAux : Nat → Nat → List Char
  | 0, n => [digitChar n]
  | fuel + 1, n =>
      if n < 10 then [digitChar n]
      else natCharsAux fuel (n / 10) ++ [digitChar (n % 10)]

/-- The JS `String(n)` rendering of a non-negative integer. -/
def natToStr (n : Nat) : String := String.mk (natCharsAux n n)

/-- `String.prototype.padStart(len, c)`. -/
def padStart (s : String) (len : Nat) (c : Char) : String :=
  String.mk (List.replicate (len - s.length) c) ++ s

/-- `genPapeleta()`: `rnd0` models `Math.floor(Math.random() * 90000)`
(so `0 ≤ rnd0 < 90000`) and `y` the current `getFullYear()`. -/
def genPapeleta (rnd0 y : Nat) : String :=
  padStart (natToStr (rnd0 + 10000)) 5 '0' ++ "-" ++ natToStr y

/-- The character shape of the spec's ticket pattern `\d{5}-\d{4}`:
five decimal digits, a hyphen, four decimal digits. -/
def isTicketChars : List Char → Bool
  | [a, b, c, d, e, dash, f, g, h, i] =>
      a.isDigit && b.isDigit && c.isDigit && d.isDigit && e.isDigit &&
      dash == '-' && f.isDigit && g.isDigit && h.isDigit && i.isDigit
  | _ => false

/-- The spec's ticket pattern `\d{5}-\d{4}` on a string. -/
def isTicket (s : String) : Bool := isTicketChars s.data

/-- Outcome of one remote `fetch` POST: the network fails, or a response
arrives with its success flag (`r.ok`) and a body — which `remotePost`
never reads; `wellFormed` records whether that body is valid JSON. -/
inductive PostOutcome where
  | netError
  | response (ok : Bool) (wellFormed : Bool)
  deriving Repr, DecidableEq

/-- `remotePost(col, body)`: issues the POST and throws (`.error`) on
network failure or on a non-success status; the response body is not
inspected. -/
def remotePost : PostOutcome → Except Unit Unit
  | .netError => .error ()
  | .response ok _ => if ok then .ok () else .error ()

/-- Body of a successful remote GET, as parsed JSON: an array of records
or some other JSON value. -/
inductive JsonBody where
  | jsonArr (xs : List Record)
  | jsonOther (v : Val)
  deriving Repr, DecidableEq

/-- Outcome of one remote `fetch` GET. -/
inductive GetOutcome where
  | netError
  | badStatus
  | badJson
  | jsonOk (body : JsonBody)
  deriving Repr, DecidableEq

/-- `remoteList(col)`: fetches the collection; any failure — network
error, non-success status, body that fails to parse — yields `none`
("remote unavailable"); otherwise the parsed body. -/
def remoteList : GetOutcome → Option JsonBody
  | .netError => none
  | .badStatus => none
  | .badJson => none
  | .jsonOk b => some b

/-- The JSON body of a wrapper's POST, by operation kind. -/
inductive PostBody where
  | addB (payload : Record)
  | updateB (id : Int) (payload : Record)
  | deleteB (id : Int)
  deriving Repr, DecidableEq

/-- A network request issued by a wrapper, in issue order. -/
inductive Event where
  | getEv (col : String)
  | postEv (col : String) (body : PostBody)
  deriving Repr, DecidableEq

/-- A wrapper or API result value (a boolean, or a key from `put`). -/
inductive Res where
  | rBool (b : Bool)
  | rVal (v : Val)
  deriving Repr, DecidableEq

/-- `listWrapper(col, localFn)`: when a remote base is configured
(non-empty, hence truthy), fetch the remote collection; a well-formed
array is returned as-is, anything else falls back to the local read.
Local state is never written, so only the result and the issued requests
are returned. -/
def listWrapper (base col : String) (out : GetOutcome)
    (localRead : List Record) : List Record × List Event :=
  if base ≠ "" then
    match remoteList out with
    | some (.jsonArr xs) => (xs, [.getEv col])
    | _ => (localRead, [.getEv col])
  else
    (localRead, [])

/-- `addWrapper(col, payload, localPut)`: with a remote base configured,
POST `{op:'add', payload}`; a successful POST short-circuits with `true`;
a thrown failure is swallowed and the local put runs.  Without a base the
local put runs directly. -/
def addWrapper (base col : String) (out : PostOutcome) (payload : Record)
    (localPut : Record → StoreState → StoreState × Val) (st : StoreState) :
    StoreState × Res × List Event :=
  if base ≠ "" then
    match remotePost out with
    | .ok _ => (st, .rBool true, [.postEv col (.addB payload)])
    | .error _ =>
        let (st', v) := localPut payload st
        (st', .rVal v, [.postEv col (.addB payload)])
  else
    let (st', v) := localPut payload st
    (st', .rVal v, [])

/-- `updateWrapper(col, id, patch, localUpdate)`: same policy with body
`{op:'update', id, payload: patch}`. -/
def updateWrapper (base col : String) (out : PostOutcome) (id : Int)
    (patch : Record) (localUpdate : Int → Record → StoreState → StoreState × Bool)
    (st : StoreState) : StoreState × Res × List Event :=
  if base ≠ "" then
    match remotePost out with
    | .ok _ => (st, .rBool true, [.postEv col (.updateB id patch)])
    | .error _ =>
        let (st', b) := localUpdate id patch st
        (st', .rBool b, [.postEv col (.updateB id patch)])
  else
    let (st', b) := localUpdate id patch st
    (st', .rBool b, [])

/-- `deleteWrapper(col, id, localRemove)`: same policy with body
`{op:'delete', id}`. -/
def deleteWrapper (base col : String) (out : PostOutcome) (id : Int)
    (localRemove : Int → StoreState → StoreState × Bool) (st : StoreState) :
    StoreState × Res × List Event :=
  if base ≠ "" then
    match remotePost out with
    | .ok _ => (st, .rBool true, [.postEv col (.deleteB id)])
    | .error _ =>
        let (st', b) := localRemove id st
        (st', .rBool b, [.postEv col (.deleteB id)])
  else
    let (st', b) := localRemove id st
    (st', .rBool b, [])

/-- Per-call environment of a domain API call: the configured remote
base, this call's network outcome, the structured backend's availability
for this call, and the current timestamp. -/
structure Env where
  base : String
  post : PostOutcome
  idbOk : Bool
  now : String

/-- `addUser(u)`. -/
def addUser (e : Env) (u : Record) (st : StoreState) :
    StoreState × Res × List Event :=
  addWrapper e.base "users" e.post u
    (fun payload s => putF e.idbOk s payload e.now) st

/-- `addVehicle(v)`. -/
def addVehicle (e : Env) (v : Record) (st : StoreState) :
    StoreState × Res × List Event :=
  addWrapper e.base "vehicles" e.post v
    (fun payload s => putF e.idbOk s payload e.now) st

/-- `addMovement(m)`. -/
def addMovement (e : Env) (m : Record) (st : StoreState) :
    StoreState × Res × List Event :=
  addWrapper e.base "movements" e.post m
    (fun payload s => putF e.idbOk s payload e.now) st

/-- The record routed by `createRequest`: the caller's fields merged over
the defaults `{estado:'Pendiente', papeleta:genPapeleta()}` — caller
fields override the defaults, per `Object.assign`. -/
def createRequestRecord (r : Record) (ticket : String) : Record :=
  objAssign [("estado", .vStr "Pendiente"), ("papeleta", .vStr ticket)] r

/-- `createRequest(r)` (`rnd0`, `y` feed the ticket generator). -/
def createRequest (e : Env) (rnd0 y : Nat) (r : Record) (st : StoreState) :
    StoreState × Res × List Event :=
  addWrapper e.base "requests" e.post
    (createRequestRecord r (genPapeleta rnd0 y))
    (fun payload s => putF e.idbOk s payload e.now) st

/-- `approveRequest(id)`. -/
def approveRequest (e : Env) (id : Int) (st : StoreState) :
    StoreState × Res × List Event :=
  updateWrapper e.base "requests" e.post id [("estado", .vStr "Aprobado")]
    (fun i p s => updateF e.idbOk e.idbOk s i p e.now) st

/-- `rejectRequest(id, obs)` (`obs || ""`). -/
def rejectRequest (e : Env) (id : Int) (obs : Option String) (st : StoreState) :
    StoreState × Res × List Event :=
  updateWrapper e.base "requests" e.post id
    [("estado", .vStr "Rechazado"), ("observacion", .vStr (obs.getD ""))]
    (fun i p s => updateF e.idbOk e.idbOk s i p e.now) st

/-- `deleteUser(id)`. -/
def deleteUser (e : Env) (id : Int) (st : StoreState) :
    StoreState × Res × List Event :=
  deleteWrapper e.base "users" e.post id
    (fun i s => removeF e.idbOk e.idbOk s i) st

/-- `deleteVehicle(id)`. -/
def deleteVehicle (e : Env) (id : Int) (st : StoreState) :
    StoreState × Res × List Event :=
  deleteWrapper e.base "vehicles" e.post id
    (fun i s => removeF e.idbOk e.idbOk s i) st

/-- `deleteRequest(id)`. -/
def deleteRequest (e : Env) (id : Int) (st : StoreState) :
    StoreState × Res × List Event :=
  deleteWrapper e.base "requests" e.post id
    (fun i s => removeF e.idbOk e.idbOk s i) st

/-- `deleteMovement(id)`. -/
def deleteMovement (e : Env) (id : Int) (st : StoreState) :
    StoreState × Res × List Event :=
  deleteWrapper e.base "movements" e.post id
    (fun i s => removeF e.idbOk e.idbOk s i) st

/-- Parsed POST body of the serverless collection endpoint.  `id` is
`none` when the body carries no `id` (JS `undefined`); `payload` is `[]`
when absent (spreading `undefined` adds nothing); `items` is `some` only
when `body.items` is an array. -/
structure ApiBody where
  op : String
  id : Option Int
  payload : Record
  items : Option (List Record)
  deriving Repr, DecidableEq

/-- `x.id === body.id` in the endpoint (strict equality, so
`undefined === undefined` holds). -/
def idEqOpt (x : Record) (i : Option Int) : Bool :=
  match objGet x "id", i with
  | some (.vNum n), some m => n = m
  | none, none => true
  | _, _ => false

/-- `listData.reduce((m, x) => Math.max(m, x.id || 0), 0) + 1`, faithful
over lists of `numericId` records (see `idOr0`). -/
def nextIdSrv (l : List Record) : Int :=
  l.foldl (fun m x => max m (idOr0 x)) 0 + 1

/-- The endpoint's `update` op: merge `payload` and an `updatedAt` stamp
into the first record matching `body.id` (no-op when none matches). -/
def srvUpdate : List Record → Option Int → Record → String → List Record
  | [], _, _, _ => []
  | x :: xs, i, payload, now =>
      if idEqOpt x i then
        mkUpdated x payload now :: xs
      else
        x :: srvUpdate xs i payload now

/-- The endpoint's `delete` op: splice out the first record matching
`body.id` (no-op when none matches). -/
def srvDelete : List Record → Option Int → List Record
  | [], _ => []
  | x :: xs, i => if idEqOpt x i then xs else x :: srvDelete xs i

/-- The POST branch of the serverless handler: reads the stored list,
dispatches on `op`, and rewrites the whole collection.  `none` is the
400 "invalid op" response (note `replace` with non-array `items` also
falls through to it). -/
def handlePost (listData : List Record) (b : ApiBody) (now : String) :
    Option (List Record) :=
  if b.op = "replace" && b.items.isSome then
    b.items
  else if b.op = "add" then
    some (listData ++
      [objAssign [("id", .vNum (nextIdSrv listData)), ("createdAt", .vStr now)]
        b.payload])
  else if b.op = "update" then
    some (srvUpdate listData b.id b.payload now)
  else if b.op = "delete" then
    some (srvDelete listData b.id)
  else
    none

/-! ## Helper lemmas about the wrappers -/

theorem addWrapper_events (base col : String) (out : PostOutcome) (p : Record)
    (f : Record → StoreState → StoreState × Val) (st : StoreState) :
    (addWrapper base col out p f st).2.2 =
      if base = "" then [] else [Event.postEv col (.addB p)] := by
  unfold addWrapper
  by_cases hb : base = ""
  · rcases hf : f p st with ⟨st', v⟩
    simp [hb, hf]
  · cases h : remotePost out with
    | ok u => simp [hb, h]
    | error u =>
        rcases hf : f p st with ⟨st', v⟩
        simp [hb, h, hf]

theorem updateWrapper_events (base col : String) (out : PostOutcome) (id : Int)
    (patch : Record) (f : Int → Record → StoreState → StoreState × Bool)
    (st : StoreState) :
    (updateWrapper base col out id patch f st).2.2 =
      if base = "" then [] else [Event.postEv col (.updateB id patch)] := by
  unfold updateWrapper
  by_cases hb : base = ""
  · rcases hf : f id patch st with ⟨st', b⟩
    simp [hb, hf]
  · cases h : remotePost out with
    | ok u => simp [hb, h]
    | error u =>
        rcases hf : f id patch st with ⟨st', b⟩
        simp [hb, h, hf]

theorem deleteWrapper_events (base col : String) (out : PostOutcome) (id : Int)
    (f : Int → StoreState → StoreState × Bool) (st : StoreState) :
    (deleteWrapper base col out id f st).2.2 =
      if base = "" then [] else [Event.postEv col (.deleteB id)] := by
  unfold deleteWrapper
  by_cases hb : base = ""
  · rcases hf : f id st with ⟨st', b⟩
    simp [hb, hf]
  · cases h : remotePost out with
    | ok u => simp [hb, h]
    | error u =>
        rcases hf : f id st with ⟨st', b⟩
        simp [hb, h, hf]

/-! ## C2 -/

/-- C2: every domain write operation routes through the remote sync
wrappers: with a remote base configured, each of the ten write operations
issues exactly the remote POST for its operation kind and collection
(whatever the outcome, the remote attempt is made first, before any local
work). -/
theorem domain_writes_route_through_wrappers
    (e : Env) (he : e.base ≠ "") (u v m r : Record) (id : Int)
    (obs : Option String) (rnd0 y : Nat) (st : StoreState) :
    (addUser e u st).2.2 = [.postEv "users" (.addB u)] ∧
    (addVehicle e v st).2.2 = [.postEv "vehicles" (.addB v)] ∧
    (addMovement e m st).2.2 = [.postEv "movements" (.addB m)] ∧
    (createRequest e rnd0 y r st).2.2 =
      [.postEv "requests" (.addB (createRequestRecord r (genPapeleta rnd0 y)))] ∧
    (approveRequest e id st).2.2 =
      [.postEv "requests" (.updateB id [("estado", .vStr "Aprobado")])] ∧
    (rejectRequest e id obs st).2.2 =
      [.postEv "requests"
        (.updateB id [("estado", .vStr "Rechazado"), ("observacion", .vStr (obs.getD ""))])] ∧
    (deleteUser e id st).2.2 = [.postEv "users" (.deleteB id)] ∧
    (deleteVehicle e id st).2.2 = [.postEv "vehicles" (.deleteB id)] ∧
    (deleteRequest e id st).2.2 = [.postEv "requests" (.deleteB id)] ∧
    (deleteMovement e id st).2.2 = [.postEv "movements" (.deleteB id)] := by
  refine ⟨?_, ?_, ?_, ?_, ?_, ?_, ?_, ?_, ?_, ?_⟩ <;>
    simp [addUser, addVehicle, addMovement, createRequest, approveRequest,
      rejectRequest, deleteUser, deleteVehicle, deleteRequest, deleteMovement,
      addWrapper_events, updateWrapper_events, deleteWrapper_events, he]

/-- Witness for C2: a concrete call with the default remote base. -/
theorem domain_writes_route_through_wrappers_witness :
    (("/api/store" : String) ≠ "") ∧
    (addUser ⟨"/api/store", .netError, true, "T"⟩ [("role", .vStr "chofer")]
      ⟨⟨[], 1⟩, []⟩).2.2 = [.postEv "users" (.addB [("role", .vStr "chofer")])] :=
  ⟨by decide,
    (domain_writes_route_through_wrappers ⟨"/api/store", .netError, true, "T"⟩
      (by decide) [("role", .vStr "chofer")] [] [] [] 0 none 0 2026
      ⟨⟨[], 1⟩, []⟩).1⟩

/-! ## C3 -/

/-- C3: with a remote base configured and a succeeding remote POST, every
write wrapper short-circuits: it returns success (`true`) and performs no
local write — the local persistence state comes back unchanged. -/
theorem write_wrappers_short_circuit_on_remote_success
    (base col : String) (hbase : base ≠ "") (out : PostOutcome)
    (hok : remotePost out = .ok ())
    (payload patch : Record) (id : Int)
    (localPut : Record → StoreState → StoreState × Val)
    (localUpdate : Int → Record → StoreState → StoreState × Bool)
    (localRemove : Int → StoreState → StoreState × Bool)
    (st : StoreState) :
    addWrapper base col out payload localPut st =
      (st, .rBool true, [.postEv col (.addB payload)]) ∧
    updateWrapper base col out id patch localUpdate st =
      (st, .rBool true, [.postEv col (.updateB id patch)]) ∧
    deleteWrapper base col out id localRemove st =
      (st, .rBool true, [.postEv col (.deleteB id)]) := by
  refine ⟨?_, ?_, ?_⟩ <;>
    simp [addWrapper, updateWrapper, deleteWrapper, hbase, hok]

/-- Witness for C3: a succeeding POST leaves a non-trivial local store
untouched. -/
theorem write_wrappers_short_circuit_on_remote_success_witness :
    (("/api/store" : String) ≠ "") ∧
    remotePost (.response true true) = .ok () ∧
    addWrapper "/api/store" "users" (.response true true) [("role", .vStr "a")]
        (fun p s => putF true s p "T") ⟨⟨[[("id", .vNum 1)]], 2⟩, []⟩ =
      (⟨⟨[[("id", .vNum 1)]], 2⟩, []⟩, .rBool true,
        [.postEv "users" (.addB [("role", .vStr "a")])]) :=
  ⟨by decide, by rfl,
    (write_wrappers_short_circuit_on_remote_success "/api/store" "users"
      (by decide) (.response true true) (by rfl) [("role", .vStr "a")] [] 0
      (fun p s => putF true s p "T") (fun i p s => updateF true true s i p "T")
      (fun i s => removeF true true s i) ⟨⟨[[("id", .vNum 1)]], 2⟩, []⟩).1⟩

/-! ## C4 -/

/-- C4: local `update` and `remove` on an identifier that matches no
record of the collection (in neither backend's contents) return `false`
and leave the state unchanged, whatever the per-call backend
availability. -/
theorem update_delete_missing_id_false_unchanged
    (r w : Bool) (st : StoreState) (id : Int) (patch : Record) (now : String)
    (hidb : ∀ x ∈ st.idb.recs, idEq x id = false)
    (hls : ∀ x ∈ st.ls, idEq x id = false) :
    updateF r w st id patch now = (st, false) ∧
    removeF r w st id = (st, false) := by
  have hlist : ∀ x ∈ getAllF r st, idEq x id = false := by
    intro x hx
    cases r with
    | true => exact hidb x (by simpa [getAllF] using hx)
    | false => exact hls x (by simpa [getAllF] using hx)
  have h1 : (getAllF r st).find? (fun x => idEq x id) = none := by
    rw [List.find?_eq_none]
    intro x hx
    simp [hlist x hx]
  have h2 : (getAllF r st).findIdx? (fun x => idEq x id) = none := by
    rw [List.findIdx?_eq_none_iff]
    intro x hx
    exact hlist x hx
  constructor
  · simp [updateF, h1]
  · simp [removeF, h2]

/-- Witness for C4: identifier 99 is absent from a one-record store. -/
theorem update_delete_missing_id_false_unchanged_witness :
    (∀ x ∈ ([[("id", Val.vNum 1)]] : List Record), idEq x 99 = false) ∧
    updateF true true ⟨⟨[[("id", .vNum 1)]], 2⟩, []⟩ 99 [("estado", .vStr "A")] "T" =
      (⟨⟨[[("id", .vNum 1)]], 2⟩, []⟩, false) :=
  ⟨by decide,
    (update_delete_missing_id_false_unchanged true true
      ⟨⟨[[("id", .vNum 1)]], 2⟩, []⟩ 99 [("estado", .vStr "A")] "T"
      (by decide) (by decide)).1⟩

/-! ## C9 -/

/-- C9: with a remote base configured, a remote GET whose body parses to
an array is returned as-is — for every local contents, so the local store
is consulted neither for the result nor for caching — while every other
outcome (network error, non-success status, malformed body, well-formed
non-array body) falls back to the local read result instead of an
error. -/
theorem listWrapper_remote_authoritative_or_local_fallback
    (base col : String) (hbase : base ≠ "") (out : GetOutcome)
    (localRead : List Record) :
    (∀ xs, out = .jsonOk (.jsonArr xs) →
      listWrapper base col out localRead = (xs, [.getEv col])) ∧
    ((∀ xs, out ≠ .jsonOk (.jsonArr xs)) →
      listWrapper base col out localRead = (localRead, [.getEv col])) := by
  constructor
  · rintro xs rfl
    simp [listWrapper, remoteList, hbase]
  · intro h
    unfold listWrapper
    cases out with
    | netError => simp [remoteList, hbase]
    | badStatus => simp [remoteList, hbase]
    | badJson => simp [remoteList, hbase]
    | jsonOk b =>
        cases b with
        | jsonArr xs => exact absurd rfl (h xs)
        | jsonOther v => simp [remoteList, hbase]

/-- After replacing every match of `P` by a record `v` that itself
matches `P`, the first match found is `v`. -/
theorem find?_map_replace (P : Record → Bool) (l : List Record) (v item : Record)
    (hv : P v = true) (h : l.find? P = some item) :
    (l.map (fun x => if P x then v else x)).find? P = some v := by
  induction l with
  | nil => simp at h
  | cons x xs ih =>
    by_cases hx : P x = true
    · simp [List.find?_cons, hx, hv]
    · rw [List.find?_cons] at h
      simp only [Bool.not_eq_true] at hx
      rw [hx] at h
      simp only [List.map_cons, hx, Bool.false_eq_true, if_false]
      rw [List.find?_cons, hx]
      exact ih h

/-- Same for `replaceFirst`. -/
theorem find?_replaceFirst (l : List Record) (id : Int) (v item : Record)
    (hv : idEq v id = true) (h : l.find? (fun x => idEq x id) = some item) :
    (replaceFirst l id v).find? (fun x => idEq x id) = some v := by
  induction l with
  | nil => simp at h
  | cons x xs ih =>
    by_cases hx : idEq x id = true
    · simp [replaceFirst, hx, List.find?_cons, hv]
    · rw [List.find?_cons] at h
      simp only [Bool.not_eq_true] at hx
      rw [hx] at h
      simp only [replaceFirst, hx, Bool.false_eq_true, if_false]
      rw [List.find?_cons, hx]
      exact ih h

/-! ## C6 -/

/-- C6 counterexample: an `update` whose patch itself carries `createdAt`
overwrites the stored record's `createdAt` (here from `"orig"` to
`"HACK"`). -/
theorem update_createdAt_patch_counterexample :
    ((updateF true true ⟨⟨[[("id", .vNum 1), ("createdAt", .vStr "orig")]], 2⟩, []⟩
        1 [("createdAt", .vStr "HACK")] "T2").1.idb.recs.map
      (fun x => objGet x "createdAt")) = [some (.vStr "HACK")] := by decide

/-- C6 amended: `put` stamps `createdAt` exactly when the record lacks a
truthy one (a falsy `createdAt` is also re-stamped), and an `update`
whose patch binds neither `createdAt` nor `id` leaves the updated
record's `createdAt` at its prior value: reading the record back after
the update finds the same `createdAt`.  Holds on both backends. -/
theorem createdAt_set_once_and_preserved
    (v : Record) (now : String)
    (b : Bool) (st : StoreState) (id : Int) (patch : Record)
    (hpC : hasKey patch "createdAt" = false) (hpI : hasKey patch "id" = false)
    (item : Record)
    (hfound : (getAllF b st).find? (fun x => idEq x id) = some item) :
    (objTruthy v "createdAt" = true → stampCreatedAt v now = v) ∧
    (objTruthy v "createdAt" = false →
      objGet (stampCreatedAt v now) "createdAt" = some (.vStr now)) ∧
    ∃ item',
      (getAllF b (updateF b b st id patch now).1).find? (fun x => idEq x id) =
        some item' ∧
      objGet item' "createdAt" = objGet item "createdAt" := by
  have hitem : idEq item id = true := by
    have h0 := List.find?_some hfound
    simpa using h0
  have hitemid : objGet item "id" = some (.vNum id) := by
    simpa [idEq] using hitem
  have hupdC : hasKey [("updatedAt", Val.vStr now)] "createdAt" = false := by
    simp [hasKey_cons]
  have hupdI : hasKey [("updatedAt", Val.vStr now)] "id" = false := by
    simp [hasKey_cons]
  have hC : objGet (mkUpdated item patch now) "createdAt" = objGet item "createdAt" := by
    unfold mkUpdated
    rw [objGet_objAssign_not_in_src _ _ _ hupdC, objGet_objAssign_not_in_src _ _ _ hpC]
  have hI : objGet (mkUpdated item patch now) "id" = some (.vNum id) := by
    unfold mkUpdated
    rw [objGet_objAssign_not_in_src _ _ _ hupdI, objGet_objAssign_not_in_src _ _ _ hpI,
      hitemid]
  have hEq : idEq (mkUpdated item patch now) id = true := by
    simp [idEq, hI]
  refine ⟨fun ht => by simp [stampCreatedAt, ht],
          fun hf => by simp [stampCreatedAt, hf, objGet_objSet_same], ?_⟩
  cases b with
  | true =>
      have hfound' : st.idb.recs.find? (fun x => idEq x id) = some item := by
        simpa [getAllF] using hfound
      have hsome : (st.idb.recs.find? (fun x => idEq x id)).isSome = true := by
        rw [hfound']; rfl
      have hput : idbPut st.idb (mkUpdated item patch now) =
          some (⟨st.idb.recs.map (fun x => if idEq x id then mkUpdated item patch now else x), max st.idb.nextKey (id + 1)⟩, .vNum id) := by
        unfold idbPut
        rw [hI]
        simp [hsome, validKey, keyBump, keyEq_num]
      have hstep : updateF true true st id patch now =
          ({ st with idb := ⟨st.idb.recs.map (fun x => if idEq x id then mkUpdated item patch now else x), max st.idb.nextKey (id + 1)⟩ }, true) := by
        unfold updateF
        simp [getAllF, hfound', hput]
      refine ⟨mkUpdated item patch now, ?_, hC⟩
      rw [hstep]
      simp only [getAllF, if_true]
      exact find?_map_replace _ _ _ _ hEq hfound'
  | false =>
      have hfound' : st.ls.find? (fun x => idEq x id) = some item := by
        simpa [getAllF] using hfound
      have hstep : updateF false false st id patch now =
          ({ st with ls := replaceFirst st.ls id (mkUpdated item patch now) }, true) := by
        unfold updateF
        simp [getAllF, hfound']
      refine ⟨mkUpdated item patch now, ?_, hC⟩
      rw [hstep]
      simp only [getAllF, if_false]
      exact find?_replaceFirst _ _ _ _ hEq hfound'

/-- Witness for C6 (amended): a concrete update whose patch only sets
`estado`. -/
theorem createdAt_set_once_and_preserved_witness :
    (hasKey [("estado", Val.vStr "Aprobado")] "createdAt" = false) ∧
    (hasKey [("estado", Val.vStr "Aprobado")] "id" = false) ∧
    ((getAllF true ⟨⟨[[("id", .vNum 1), ("createdAt", .vStr "orig")]], 2⟩, []⟩).find?
      (fun x => idEq x 1) = some [("id", .vNum 1), ("createdAt", .vStr "orig")]) ∧
    ∃ item',
      (getAllF true (updateF true true
          ⟨⟨[[("id", .vNum 1), ("createdAt", .vStr "orig")]], 2⟩, []⟩
          1 [("estado", Val.vStr "Aprobado")] "T2").1).find? (fun x => idEq x 1) =
        some item' ∧
      objGet item' "createdAt" =
        objGet [("id", Val.vNum 1), ("createdAt", Val.vStr "orig")] "createdAt" :=
  ⟨by decide, by decide, by decide,
    (createdAt_set_once_and_preserved [] "T2" true
      ⟨⟨[[("id", .vNum 1), ("createdAt", .vStr "orig")]], 2⟩, []⟩
      1 [("estado", Val.vStr "Aprobado")] (by decide) (by decide)
      [("id", Val.vNum 1), ("createdAt", Val.vStr "orig")] (by decide)).2.2⟩

/-! ## C1 -/

/-- C1 counterexample: a malformed response body under a success HTTP
status is not a caught remote-transport error — `addWrapper` treats the
POST as a success, returns `true`, and skips the local write (the empty
store stays empty), although the equivalent local operation would have
changed the store. -/
theorem addWrapper_malformed_success_skips_local :
    addWrapper "/api/store" "users" (.response true false) [("role", .vStr "a")]
        (fun p s => putF true s p "T") ⟨⟨[], 1⟩, []⟩ =
      (⟨⟨[], 1⟩, []⟩, .rBool true, [.postEv "users" (.addB [("role", .vStr "a")])]) ∧
    (putF true ⟨⟨[], 1⟩, []⟩ [("role", .vStr "a")] "T").1 ≠
      (⟨⟨[], 1⟩, []⟩ : StoreState) := by
  constructor
  · rfl
  · decide

/-- C1 amended: with a remote base configured, a network failure or a
non-success HTTP status on a write POST is caught at the wrapper
boundary: each of the three write wrappers swallows the error and
performs the equivalent local operation, returning its result (no error
is surfaced — the wrappers always return normally).  The response body is
never inspected on writes, so a malformed body under a success status
short-circuits as a success instead of triggering the local
operation. -/
theorem write_wrappers_fall_back_on_net_or_status_error
    (base col : String) (hbase : base ≠ "") (out : PostOutcome)
    (herr : out = .netError ∨ ∃ wf, out = .response false wf)
    (payload patch : Record) (id : Int)
    (localPut : Record → StoreState → StoreState × Val)
    (localUpdate : Int → Record → StoreState → StoreState × Bool)
    (localRemove : Int → StoreState → StoreState × Bool)
    (st : StoreState) :
    addWrapper base col out payload localPut st =
      ((localPut payload st).1, .rVal (localPut payload st).2,
        [.postEv col (.addB payload)]) ∧
    updateWrapper base col out id patch localUpdate st =
      ((localUpdate id patch st).1, .rBool (localUpdate id patch st).2,
        [.postEv col (.updateB id patch)]) ∧
    deleteWrapper base col out id localRemove st =
      ((localRemove id st).1, .rBool (localRemove id st).2,
        [.postEv col (.deleteB id)]) := by
  have herr' : remotePost out = .error () := by
    rcases herr with h | ⟨wf, h⟩ <;> subst h <;> rfl
  refine ⟨?_, ?_, ?_⟩ <;>
    simp [addWrapper, updateWrapper, deleteWrapper, hbase, herr']

/-- Witness for C1 (amended): a network failure routes a concrete add to
the local put. -/
theorem write_wrappers_fall_back_on_net_or_status_error_witness :
    (("/api/store" : String) ≠ "") ∧
    addWrapper "/api/store" "users" .netError [("role", .vStr "a")]
        (fun p s => putF true s p "T") ⟨⟨[], 1⟩, []⟩ =
      ((putF true ⟨⟨[], 1⟩, []⟩ [("role", .vStr "a")] "T").1,
        .rVal (putF true ⟨⟨[], 1⟩, []⟩ [("role", .vStr "a")] "T").2,
        [.postEv "users" (.addB [("role", .vStr "a")])]) :=
  ⟨by decide,
    (write_wrappers_fall_back_on_net_or_status_error "/api/store" "users"
      (by decide) .netError (Or.inl rfl) [("role", .vStr "a")] [] 0
      (fun p s => putF true s p "T") (fun i p s => updateF true true s i p "T")
      (fun i s => removeF true true s i) ⟨⟨[], 1⟩, []⟩).1⟩

/-- Witness for C9: a concrete remote array is returned as-is over a
non-empty differing local store. -/
theorem listWrapper_remote_authoritative_or_local_fallback_witness :
    (("/api/store" : String) ≠ "") ∧
    listWrapper "/api/store" "users" (.jsonOk (.jsonArr [[("id", .vNum 7)]]))
        [[("id", .vNum 1)]] =
      ([[("id", .vNum 7)]], [.getEv "users"]) :=
  ⟨by decide,
    (listWrapper_remote_authoritative_or_local_fallback "/api/store" "users"
      (by decide) (.jsonOk (.jsonArr [[("id", .vNum 7)]]))
      [[("id", .vNum 1)]]).1 [[("id", .vNum 7)]] rfl⟩

/-! ## C7 -/

/-- C7 counterexample: on the flat backend, two `put`s of records carrying
the same explicit identifier leave two records of the collection sharing
id 1 — and after deleting the highest id, a fresh `put` reuses it. -/
theorem flat_put_duplicate_id_counterexample :
    ((putF false (putF false ⟨⟨[], 1⟩, []⟩ [("id", Val.vNum 1)] "t1").1
        [("id", Val.vNum 1)] "t2").1.ls.map (fun x => objGet x "id")) =
      [some (.vNum 1), some (.vNum 1)] := by decide

theorem idEq_eq_true_iff (x : Record) (n : Int) :
    idEq x n = true ↔ objGet x "id" = some (.vNum n) := by
  simp [idEq]

theorem keyEq_eq_true_iff (x : Record) (k : Val) :
    keyEq x k = true ↔ objGet x "id" = some k := by
  simp [keyEq]

/-- Record `x` carries a valid key as id (a number or a string), and a
numeric id lies strictly below the key generator of `c`. -/
def idOk (c : IdbCol) (x : Record) : Bool :=
  match objGet x "id" with
  | some (.vNum n) => n < c.nextKey
  | some (.vStr _) => true
  | _ => false

/-- Structured-store well-formedness: every record carries a valid key as
its id, numeric ids lie below the key generator, and the stored ids are
pairwise distinct. -/
def IdbWF (c : IdbCol) : Prop :=
  (∀ x ∈ c.recs, idOk c x = true) ∧
  (c.recs.map (fun x => objGet x "id")).Nodup

theorem idOk_mono (c c' : IdbCol) (x : Record) (hle : c.nextKey ≤ c'.nextKey)
    (h : idOk c x = true) : idOk c' x = true := by
  unfold idOk at h ⊢
  cases hg : objGet x "id" with
  | none => rw [hg] at h; simp at h
  | some val =>
    cases val with
    | vNum n =>
        rw [hg] at h
        have h' : n < c.nextKey := by simpa using h
        simp only [decide_eq_true_eq]
        omega
    | vNull => rw [hg] at h; simp at h
    | vBool b => rw [hg] at h; simp at h
    | vStr str => rfl

theorem idOk_cases (c : IdbCol) (x : Record) (h : idOk c x = true) :
    (∃ n : Int, objGet x "id" = some (.vNum n) ∧ n < c.nextKey) ∨
    (∃ str, objGet x "id" = some (.vStr str)) := by
  unfold idOk at h
  cases hg : objGet x "id" with
  | none => rw [hg] at h; simp at h
  | some val =>
    cases val with
    | vNum n =>
        rw [hg] at h
        exact Or.inl ⟨n, rfl, by simpa using h⟩
    | vNull => rw [hg] at h; simp at h
    | vBool b => rw [hg] at h; simp at h
    | vStr str => exact Or.inr ⟨str, rfl⟩

theorem keyBump_le (nk : Int) (k : Val) : nk ≤ keyBump nk k := by
  cases k <;> simp [keyBump]

/-- Replacing every key-match by a record with that same id leaves the
stored id sequence unchanged. -/
theorem map_ids_replace (recs : List Record) (k : Val) (v : Record)
    (hv : objGet v "id" = some k) :
    ((recs.map (fun x => if keyEq x k then v else x)).map
      (fun x => objGet x "id")) = recs.map (fun x => objGet x "id") := by
  rw [List.map_map]
  apply List.map_congr_left
  intro x _
  by_cases hxk : keyEq x k = true
  · simp only [Function.comp_apply, hxk, if_true, hv]
    exact ((keyEq_eq_true_iff x k).mp hxk).symm
  · simp only [Bool.not_eq_true] at hxk
    simp [Function.comp_apply, hxk]

theorem foldl_max_init_le (ys : List Record) (init : Int) :
    init ≤ ys.foldl (fun m y => max m (idOr0 y)) init := by
  induction ys generalizing init with
  | nil => exact le_refl _
  | cons y ys ih =>
    rw [List.foldl_cons]
    exact le_trans (le_max_left _ _) (ih _)

theorem foldl_max_mem_le (ys : List Record) (x : Record) (hx : x ∈ ys)
    (init : Int) : idOr0 x ≤ ys.foldl (fun m y => max m (idOr0 y)) init := by
  induction ys generalizing init with
  | nil => cases hx
  | cons y ys ih =>
    rw [List.foldl_cons]
    rcases List.mem_cons.mp hx with rfl | hx'
    · exact le_trans (le_max_right _ _) (foldl_max_init_le _ _)
    · exact ih hx' _

theorem le_maxId (l : List Record) (x : Record) (hx : x ∈ l) :
    idOr0 x ≤ maxId l := by
  cases l with
  | nil => cases hx
  | cons y ys =>
    rcases List.mem_cons.mp hx with rfl | hx'
    · exact foldl_max_init_le _ _
    · exact foldl_max_mem_le _ _ hx' _

/-- A record whose numeric-or-absent id is bounded strictly below `a`
cannot match `a`. -/
theorem idEq_false_of_gt (x : Record) (a : Int) (h : idOr0 x < a) :
    idEq x a = false := by
  unfold idEq
  cases hg : objGet x "id" with
  | none => simp
  | some val =>
    cases val with
    | vNum n =>
        have hid : idOr0 x = n := by unfold idOr0; rw [hg]
        rw [hid] at h
        simp only [decide_eq_false_iff_not]
        intro hc
        cases hc
        omega
    | vNull => simp
    | vBool b => simp
    | vStr str => simp

/-- C7 amended: on the structured backend, stored ids stay pairwise
distinct through every successful `put`, `delete` and `clear` (the
invariant: every stored id is a valid key — number or string — numeric
ids lie strictly below the key generator, which never decreases); an
auto-assigned id equals the generator's value and matches no stored
record — so auto-assigned ids are increasing and never reused.  On the
flat backend, over arrays whose records' ids are numeric, absent or
falsy, a `put` of a record without a truthy id appends a record whose id
`max(existing ids) + 1` (1 on an empty array) matches no existing
record; explicit ids, however, can collide there and freed ids can be
re-assigned (see the counterexample). -/
theorem structured_ids_unique_monotone_flat_fresh
    (c : IdbCol) (h : IdbWF c) (v : Record) (id : Int)
    (l : List Record) (w : Record) :
    (∀ c' key, idbPut c v = some (c', key) → IdbWF c' ∧ c.nextKey ≤ c'.nextKey) ∧
    (hasKey v "id" = false →
      ∃ c', idbPut c v = some (c', .vNum c.nextKey) ∧
        (∀ x ∈ c.recs, idEq x c.nextKey = false) ∧
        c'.nextKey = c.nextKey + 1) ∧
    (IdbWF (idbDelete c id) ∧ (idbDelete c id).nextKey = c.nextKey ∧
      IdbWF (idbClear c)) ∧
    (objTruthy w "id" = false → (∀ x ∈ l, numericId x = true) →
      ∃ w', (flatPut l w).1 = l ++ [w'] ∧
        objGet w' "id" = some (.vNum (if l.isEmpty then 1 else maxId l + 1)) ∧
        ∀ x ∈ l, idEq x (if l.isEmpty then 1 else maxId l + 1) = false) := by
  obtain ⟨h1, h2⟩ := h
  refine ⟨?_, ?_, ?_, ?_⟩
  · -- every successful structured put preserves the invariant; the
    -- generator is monotone
    intro c' key hput
    cases hg : objGet v "id" with
    | none =>
        have hput2 : idbPut c v =
            some (⟨c.recs ++ [objSet v "id" (.vNum c.nextKey)], c.nextKey + 1⟩,
              .vNum c.nextKey) := by
          unfold idbPut
          rw [hg]
        rw [hput2] at hput
        injection hput with hput
        injection hput with hc hk
        subst hc
        constructor
        · constructor
          · intro x hx
            rcases List.mem_append.mp hx with hx' | hx'
            · exact idOk_mono c _ x (by simp) (h1 x hx')
            · rcases List.mem_singleton.mp hx' with rfl
              unfold idOk
              rw [objGet_objSet_same]
              simp
          · rw [List.map_append, List.nodup_append]
            refine ⟨h2, by simp, ?_⟩
            intro a ha hb
            simp only [List.map_cons, List.map_nil, List.mem_singleton] at hb
            rw [objGet_objSet_same] at hb
            subst hb
            rcases List.mem_map.mp ha with ⟨x, hx, hxa⟩
            rcases idOk_cases c x (h1 x hx) with ⟨n, hn, hlt⟩ | ⟨str, hstr⟩
            · rw [hn] at hxa
              cases hxa
              omega
            · rw [hstr] at hxa
              cases hxa
        · simp
    | some k =>
        by_cases hvk : validKey k = true
        · by_cases hfind : (c.recs.find? (fun x => keyEq x k)).isSome = true
          · have hput2 : idbPut c v =
                some (⟨c.recs.map (fun x => if keyEq x k then v else x),
                  keyBump c.nextKey k⟩, k) := by
              unfold idbPut
              rw [hg]
              simp [hvk, hfind]
            rw [hput2] at hput
            injection hput with hput
            injection hput with hc hk
            subst hc
            constructor
            · constructor
              · intro x hx
                rcases List.mem_map.mp hx with ⟨x₀, hx₀, hxx⟩
                by_cases hxk : keyEq x₀ k = true
                · rw [if_pos hxk] at hxx
                  subst hxx
                  unfold idOk
                  rw [hg]
                  cases k with
                  | vNum n =>
                      simp only [keyBump, decide_eq_true_eq]
                      exact lt_of_lt_of_le (by omega) (le_max_right _ _)
                  | vStr str => rfl
                  | vNull => simp [validKey] at hvk
                  | vBool b => simp [validKey] at hvk
                · simp only [Bool.not_eq_true] at hxk
                  rw [hxk] at hxx
                  simp only [Bool.false_eq_true, if_false] at hxx
                  subst hxx
                  exact idOk_mono c _ _ (keyBump_le _ _) (h1 _ hx₀)
              · rw [map_ids_replace c.recs k v hg]
                exact h2
            · exact keyBump_le _ _
          · have hfind2 : (c.recs.find? (fun x => keyEq x k)).isSome = false := by
              simpa using hfind
            have hput2 : idbPut c v =
                some (⟨c.recs ++ [v], keyBump c.nextKey k⟩, k) := by
              unfold idbPut
              rw [hg]
              simp [hvk, hfind2]
            rw [hput2] at hput
            injection hput with hput
            injection hput with hc hk
            subst hc
            have hfresh : ∀ x ∈ c.recs, keyEq x k = false := by
              intro x hx
              have hnone : c.recs.find? (fun x => keyEq x k) = none :=
                Option.not_isSome_iff_eq_none.mp (by simp [hfind2])
              have hmem := List.find?_eq_none.mp hnone x hx
              simpa using hmem
            constructor
            · constructor
              · intro x hx
                rcases List.mem_append.mp hx with hx' | hx'
                · exact idOk_mono c _ x (keyBump_le _ _) (h1 x hx')
                · rcases List.mem_singleton.mp hx' with rfl
                  unfold idOk
                  rw [hg]
                  cases k with
                  | vNum n =>
                      simp only [keyBump, decide_eq_true_eq]
                      exact lt_of_lt_of_le (by omega) (le_max_right _ _)
                  | vStr str => rfl
                  | vNull => simp [validKey] at hvk
                  | vBool b => simp [validKey] at hvk
              · rw [List.map_append, List.nodup_append]
                refine ⟨h2, by simp, ?_⟩
                intro a ha hb
                simp only [List.map_cons, List.map_nil, List.mem_singleton] at hb
                rw [hg] at hb
                subst hb
                rcases List.mem_map.mp ha with ⟨x, hx, hxa⟩
                have hfx := hfresh x hx
                exact absurd ((keyEq_eq_true_iff x k).mpr hxa) (by simp [hfx])
            · exact keyBump_le _ _
        · have hput2 : idbPut c v = none := by
            unfold idbPut
            rw [hg]
            simp [hvk]
          rw [hput2] at hput
          cases hput
  · -- auto-assigned ids are the generator's value, fresh, and bump it
    intro hno
    have hg : objGet v "id" = none := by
      have hiff := objGet_isSome_iff_hasKey v "id"
      rw [hno] at hiff
      exact Option.not_isSome_iff_eq_none.mp (by simp [hiff])
    refine ⟨⟨c.recs ++ [objSet v "id" (.vNum c.nextKey)], c.nextKey + 1⟩, ?_, ?_, rfl⟩
    · unfold idbPut
      rw [hg]
    · intro x hx
      rcases idOk_cases c x (h1 x hx) with ⟨n, hn, hlt⟩ | ⟨str, hstr⟩
      · unfold idEq
        rw [hn]
        simp only [decide_eq_false_iff_not]
        intro hc
        cases hc
        omega
      · unfold idEq
        rw [hstr]
        simp
  · -- delete and clear preserve the invariant; delete keeps the generator
    refine ⟨⟨?_, ?_⟩, rfl, ?_, ?_⟩
    · intro x hx
      have hx' : x ∈ c.recs := List.mem_of_mem_filter hx
      exact h1 x hx'
    · unfold idbDelete
      exact h2.sublist (List.Sublist.map _ (List.filter_sublist _))
    · intro x hx
      cases hx
    · simp [idbClear]
  · -- flat put of an id-less record appends under a fresh id (over lists
    -- on which `x.id || 0` is faithfully numeric)
    intro hw _hnum
    refine ⟨objSet w "id" (.vNum (if l.isEmpty then 1 else maxId l + 1)), ?_, ?_, ?_⟩
    · unfold flatPut
      rw [hw]
      simp
    · exact objGet_objSet_same _ _ _
    · intro x hx
      have hne : ¬ l.isEmpty := by
        cases l with
        | nil => cases hx
        | cons y ys => simp
      rw [if_neg hne]
      apply idEq_false_of_gt
      have hle := le_maxId l x hx
      omega

/-- Witness for C7 (amended): a concrete well-formed one-record store and
an id-less flat insert into a numeric-id array. -/
theorem structured_ids_unique_monotone_flat_fresh_witness :
    IdbWF ⟨[[("id", Val.vNum 1)]], 2⟩ ∧
    (objTruthy [("plate", Val.vStr "p")] "id" = false) ∧
    (∀ x ∈ ([[("id", Val.vNum 3)]] : List Record), numericId x = true) ∧
    (∃ w', (flatPut [[("id", Val.vNum 3)]] [("plate", Val.vStr "p")]).1 =
        [[("id", Val.vNum 3)]] ++ [w'] ∧
      objGet w' "id" =
        some (.vNum (if ([[("id", Val.vNum 3)]] : List Record).isEmpty then 1
          else maxId [[("id", Val.vNum 3)]] + 1)) ∧
      ∀ x ∈ ([[("id", Val.vNum 3)]] : List Record),
        idEq x (if ([[("id", Val.vNum 3)]] : List Record).isEmpty then 1
          else maxId [[("id", Val.vNum 3)]] + 1) = false) :=
  ⟨⟨by decide, by decide⟩, by decide, by decide,
    (structured_ids_unique_monotone_flat_fresh ⟨[[("id", Val.vNum 1)]], 2⟩
      ⟨by decide, by decide⟩ [] 0 [[("id", Val.vNum 3)]]
      [("plate", Val.vStr "p")]).2.2.2 (by decide) (by decide)⟩

/-! ## C5 -/

/-- C5 counterexample: `Object.assign({estado, papeleta}, r)` lets the
caller's fields override the defaults, so an input carrying `estado`
yields a record whose state is not `"Pendiente"`. -/
theorem createRequest_estado_override_counterexample :
    ((createRequest ⟨"", .netError, false, "T"⟩ 0 2026 [("estado", .vStr "X")]
        ⟨⟨[], 1⟩, []⟩).1.ls.map (fun x => objGet x "estado")) =
      [some (.vStr "X")] ∧ Val.vStr "X" ≠ Val.vStr "Pendiente" := by
  constructor
  · decide
  · decide

theorem digitChar_isDigit (d : Nat) (h : d < 10) :
    (digitChar d).isDigit = true := by
  interval_cases d <;> decide

theorem natCharsAux_digits (fuel : Nat) : ∀ n, n ≤ fuel →
    ∀ c ∈ natCharsAux fuel n, c.isDigit = true := by
  induction fuel with
  | zero =>
      intro n hn c hc
      have hn0 : n = 0 := by omega
      subst hn0
      simp [natCharsAux] at hc
      subst hc
      decide
  | succ fuel ih =>
      intro n hn c hc
      by_cases h10 : n < 10
      · simp [natCharsAux, h10] at hc
        subst hc
        exact digitChar_isDigit n h10
      · simp only [natCharsAux, h10, if_false] at hc
        rcases List.mem_append.mp hc with hc' | hc'
        · exact ih (n / 10) (by omega) c hc'
        · simp at hc'
          subst hc'
          exact digitChar_isDigit (n % 10) (by omega)

theorem natCharsAux_length (fuel : Nat) : ∀ n k, n ≤ fuel → 10 ^ k ≤ n →
    n < 10 ^ (k + 1) → (natCharsAux fuel n).length = k + 1 := by
  induction fuel with
  | zero =>
      intro n k hn hk _
      have h1 : 1 ≤ 10 ^ k := Nat.one_le_pow _ _ (by omega)
      omega
  | succ fuel ih =>
      intro n k hn hk hk2
      by_cases h10 : n < 10
      · cases k with
        | zero => simp [natCharsAux, h10]
        | succ k' =>
            have h5 : (10 : Nat) ≤ 10 ^ (k' + 1) := by
              calc (10 : Nat) = 10 ^ 1 := (pow_one 10).symm
                _ ≤ 10 ^ (k' + 1) := Nat.pow_le_pow_right (by omega) (by omega)
            omega
      · cases k with
        | zero =>
            rw [pow_one] at hk2
            omega
        | succ k' =>
            have hlow : 10 ^ k' * 10 ≤ n := by
              rw [← pow_succ]
              exact hk
            have hhigh : n < 10 ^ (k' + 1) * 10 := by
              rw [← pow_succ]
              exact hk2
            have hrec : (natCharsAux fuel (n / 10)).length = k' + 1 := by
              apply ih
              · omega
              · omega
              · omega
            simp [natCharsAux, h10, hrec]

/-- Digit-character rendering of a five-digit number. -/
theorem natChars_five (m : Nat) (h1 : 10000 ≤ m) (h2 : m ≤ 99999) :
    (natCharsAux m m).length = 5 ∧ ∀ c ∈ natCharsAux m m, c.isDigit = true := by
  constructor
  · have e4 : (10 : Nat) ^ 4 = 10000 := by norm_num
    have e5 : (10 : Nat) ^ 5 = 100000 := by norm_num
    exact natCharsAux_length m m 4 (le_refl m) (by omega) (by omega)
  · exact natCharsAux_digits m m (le_refl m)

/-- Digit-character rendering of a four-digit number. -/
theorem natChars_four (y : Nat) (h1 : 1000 ≤ y) (h2 : y ≤ 9999) :
    (natCharsAux y y).length = 4 ∧ ∀ c ∈ natCharsAux y y, c.isDigit = true := by
  constructor
  · have e3 : (10 : Nat) ^ 3 = 1000 := by norm_num
    have e4 : (10 : Nat) ^ 4 = 10000 := by norm_num
    exact natCharsAux_length y y 3 (le_refl y) (by omega) (by omega)
  · exact natCharsAux_digits y y (le_refl y)

theorem isTicketChars_of_parts (L1 L2 : List Char)
    (h1 : L1.length = 5) (h2 : L2.length = 4)
    (d1 : ∀ c ∈ L1, c.isDigit = true) (d2 : ∀ c ∈ L2, c.isDigit = true) :
    isTicketChars (L1 ++ '-' :: L2) = true := by
  rcases L1 with _ | ⟨a, L1⟩
  · simp at h1
  rcases L1 with _ | ⟨b, L1⟩
  · simp at h1
  rcases L1 with _ | ⟨c, L1⟩
  · simp at h1
  rcases L1 with _ | ⟨d, L1⟩
  · simp at h1
  rcases L1 with _ | ⟨e, L1⟩
  · simp at h1
  rcases L1 with _ | ⟨a', L1⟩
  swap
  · simp at h1
  rcases L2 with _ | ⟨f, L2⟩
  · simp at h2
  rcases L2 with _ | ⟨g, L2⟩
  · simp at h2
  rcases L2 with _ | ⟨h, L2⟩
  · simp at h2
  rcases L2 with _ | ⟨i, L2⟩
  · simp at h2
  rcases L2 with _ | ⟨b', L2⟩
  swap
  · simp at h2
  have da := d1 a (by simp)
  have db := d1 b (by simp)
  have dc := d1 c (by simp)
  have dd := d1 d (by simp)
  have de := d1 e (by simp)
  have df := d2 f (by simp)
  have dg := d2 g (by simp)
  have dh := d2 h (by simp)
  have di := d2 i (by simp)
  simp only [List.cons_append, List.nil_append]
  simp [isTicketChars, da, db, dc, dd, de, df, dg, dh, di]

/-- `String.append` on explicit character lists. -/
theorem string_mk_append (a b : List Char) :
    String.mk a ++ String.mk b = String.mk (a ++ b) := rfl

/-- Padding a five-character string to width 5 is the identity. -/
theorem padStart_len5 (L : List Char) (h : L.length = 5) :
    padStart (String.mk L) 5 '0' = String.mk L := by
  unfold padStart
  have h2 : (String.mk L).length = 5 := by simp [String.length, h]
  rw [h2]
  simp [string_mk_append]

/-- The generated ticket matches `\\d{5}-\\d{4}` whenever the random part
is in range and the year has four digits. -/
theorem genPapeleta_isTicket (rnd0 y : Nat) (hrnd : rnd0 < 90000)
    (hy1 : 1000 ≤ y) (hy2 : y ≤ 9999) :
    isTicket (genPapeleta rnd0 y) = true := by
  obtain ⟨hlen5, hdig5⟩ := natChars_five (rnd0 + 10000) (by omega) (by omega)
  obtain ⟨hlen4, hdig4⟩ := natChars_four y hy1 hy2
  have hdash : ("-" : String) = String.mk ['-'] := rfl
  have hgen : genPapeleta rnd0 y =
      String.mk (natCharsAux (rnd0 + 10000) (rnd0 + 10000) ++ '-' :: natCharsAux y y) := by
    unfold genPapeleta natToStr
    rw [padStart_len5 _ hlen5, hdash, string_mk_append, string_mk_append]
    simp
  unfold isTicket
  rw [hgen]
  exact isTicketChars_of_parts _ _ hlen5 hlen4 hdig5 hdig4

/-- C5 amended: for every input object binding neither `estado` nor
`papeleta`, the record `createRequest` routes carries `estado =
"Pendiente"` (the spec's `state == "Pending"`) and a `papeleta` (the
spec's `ticketNumber`) that is the generated ticket and matches
`\\d{5}-\\d{4}`; the random part lies in [10000, 99999].  Inputs binding
those keys override the defaults (see the counterexample). -/
theorem createRequest_defaults_and_ticket (rnd0 y : Nat) (r : Record)
    (hrnd : rnd0 < 90000) (hy1 : 1000 ≤ y) (hy2 : y ≤ 9999)
    (hest : hasKey r "estado" = false) (hpap : hasKey r "papeleta" = false) :
    objGet (createRequestRecord r (genPapeleta rnd0 y)) "estado" =
      some (.vStr "Pendiente") ∧
    objGet (createRequestRecord r (genPapeleta rnd0 y)) "papeleta" =
      some (.vStr (genPapeleta rnd0 y)) ∧
    isTicket (genPapeleta rnd0 y) = true ∧
    10000 ≤ rnd0 + 10000 ∧ rnd0 + 10000 ≤ 99999 := by
  refine ⟨?_, ?_, genPapeleta_isTicket rnd0 y hrnd hy1 hy2, by omega, by omega⟩
  · unfold createRequestRecord
    rw [objGet_objAssign_not_in_src _ _ _ hest]
    rfl
  · unfold createRequestRecord
    rw [objGet_objAssign_not_in_src _ _ _ hpap]
    rfl

/-- Witness for C5 (amended): empty caller input, year 2026. -/
theorem createRequest_defaults_and_ticket_witness :
    (hasKey ([] : Record) "estado" = false) ∧
    objGet (createRequestRecord [] (genPapeleta 0 2026)) "estado" =
      some (.vStr "Pendiente") ∧
    isTicket (genPapeleta 0 2026) = true :=
  ⟨by decide,
    (createRequest_defaults_and_ticket 0 2026 [] (by decide) (by decide)
      (by decide) (by decide) (by decide)).1,
    (createRequest_defaults_and_ticket 0 2026 [] (by decide) (by decide)
      (by decide) (by decide) (by decide)).2.2.1⟩

/-! ## C10 -/

/-- C10 counterexample: the payload spread overrides the assigned fields,
so an `add` whose payload carries `id: 5` appends a record with id 5, not
`max(existing ids) + 1 = 2`. -/
theorem srv_add_payload_override_counterexample :
    handlePost [[("id", .vNum 1)]] ⟨"add", none, [("id", .vNum 5)], none⟩ "now" =
      some [[("id", .vNum 1)], [("id", .vNum 5), ("createdAt", .vStr "now")]] ∧
    nextIdSrv [[("id", .vNum 1)]] = 2 ∧ (5 : Int) ≠ 2 := by
  refine ⟨by decide, by decide, by decide⟩

/-- C10 amended: over stored lists whose records' ids are numeric,
absent or falsy (the shapes on which `x.id || 0` is numeric — a truthy
non-numeric id would be coerced by `Math.max`), for every payload binding
neither `id` nor `createdAt`, the endpoint's `add` op appends exactly one
record, carrying the collection-wide incrementing identifier
`max(existing ids) + 1` — which is strictly above every stored id — and
the server-stamped creation time alongside the payload fields.  A
payload field named `id` or `createdAt` overrides the assigned value
(see the counterexample). -/
theorem srv_add_appends_fresh_id_and_stamp
    (l : List Record) (p : Record) (i : Option Int) (now : String)
    (_hnum : ∀ x ∈ l, numericId x = true)
    (hid : hasKey p "id" = false) (hca : hasKey p "createdAt" = false) :
    ∃ r, handlePost l ⟨"add", i, p, none⟩ now = some (l ++ [r]) ∧
      objGet r "id" = some (.vNum (nextIdSrv l)) ∧
      objGet r "createdAt" = some (.vStr now) ∧
      ∀ x ∈ l, idOr0 x < nextIdSrv l := by
  refine ⟨objAssign [("id", .vNum (nextIdSrv l)), ("createdAt", .vStr now)] p,
    ?_, ?_, ?_, ?_⟩
  · simp [handlePost]
  · rw [objGet_objAssign_not_in_src _ _ _ hid]
    rfl
  · rw [objGet_objAssign_not_in_src _ _ _ hca]
    rfl
  · intro x hx
    unfold nextIdSrv
    have hle := foldl_max_mem_le l x hx 0
    omega

/-- Witness for C10 (amended): one stored record, a payload without `id`
or `createdAt`. -/
theorem srv_add_appends_fresh_id_and_stamp_witness :
    (∀ x ∈ ([[("id", Val.vNum 1)]] : List Record), numericId x = true) ∧
    (hasKey [("plate", Val.vStr "p")] "id" = false) ∧
    ∃ r, handlePost [[("id", .vNum 1)]] ⟨"add", none, [("plate", .vStr "p")], none⟩
        "now" = some ([[("id", .vNum 1)]] ++ [r]) ∧
      objGet r "id" = some (.vNum (nextIdSrv [[("id", .vNum 1)]])) ∧
      objGet r "createdAt" = some (.vStr "now") ∧
      ∀ x ∈ ([[("id", Val.vNum 1)]] : List Record), idOr0 x < nextIdSrv [[("id", .vNum 1)]] :=
  ⟨by decide, by decide,
    srv_add_appends_fresh_id_and_stamp [[("id", .vNum 1)]] [("plate", .vStr "p")]
      none "now" (by decide) (by decide) (by decide)⟩

/-! ## C8 -/

/-- A record in the shape the structured store exports it: numeric id and
truthy `createdAt`. -/
def exportable (x : Record) : Bool :=
  (match objGet x "id" with
   | some (.vNum _) => true
   | _ => false) && objTruthy x "createdAt"

/-- Exported-collection shape: every record exportable, stored ids
pairwise distinct (guaranteed by the structured backend's key
discipline). -/
def GoodCol (recs : List Record) : Prop :=
  (∀ x ∈ recs, exportable x = true) ∧
  (recs.map (fun x => objGet x "id")).Nodup

theorem exportable_parts (x : Record) (h : exportable x = true) :
    (∃ n : Int, objGet x "id" = some (.vNum n)) ∧
    objTruthy x "createdAt" = true := by
  unfold exportable at h
  rw [Bool.and_eq_true] at h
  refine ⟨?_, h.2⟩
  have h1 := h.1
  cases hg : objGet x "id" with
  | none => rw [hg] at h1; simp at h1
  | some val =>
    rw [hg] at h1
    cases val with
    | vNum n => exact ⟨n, rfl⟩
    | vNull => simp at h1
    | vBool b => simp at h1
    | vStr str => simp at h1

/-- Re-inserting exportable records with pairwise-fresh ids into a
structured store holding `done` appends them in order. -/
theorem refill (todo : List Record) : ∀ (done : List Record) (nk : Int)
    (ls : List Record) (now : String),
    (∀ x ∈ todo, exportable x = true) →
    (((done ++ todo).map (fun x => objGet x "id")).Nodup) →
    ∃ nk', todo.foldl (fun st item => (putF true st item now).1) ⟨⟨done, nk⟩, ls⟩ =
      ⟨⟨done ++ todo, nk'⟩, ls⟩ := by
  induction todo with
  | nil =>
      intro done nk ls now _ _
      exact ⟨nk, by simp⟩
  | cons item rest ih =>
      intro done nk ls now hgood hnodup
      obtain ⟨⟨n, hn⟩, hca⟩ := exportable_parts item (hgood item (by simp))
      have hstamp : stampCreatedAt item now = item := by
        unfold stampCreatedAt
        rw [if_pos hca]
      have hdisj : ∀ x ∈ done, keyEq x (.vNum n) = false := by
        intro x hx
        rw [List.map_append, List.nodup_append] at hnodup
        have hdis := hnodup.2.2
        by_contra hcon
        rw [Bool.not_eq_false, keyEq_eq_true_iff] at hcon
        have hmemA : some (Val.vNum n) ∈ done.map (fun x => objGet x "id") := by
          rw [← hcon]
          exact List.mem_map_of_mem _ hx
        have hmemB : some (Val.vNum n) ∈ (item :: rest).map (fun x => objGet x "id") := by
          simp [hn]
        exact hdis hmemA hmemB
      have hfind : (done.find? (fun x => keyEq x (.vNum n))).isSome = false := by
        have hnone : done.find? (fun x => keyEq x (.vNum n)) = none := by
          rw [List.find?_eq_none]
          intro x hx
          simp [hdisj x hx]
        rw [hnone]
        rfl
      have hput2 : idbPut ⟨done, nk⟩ (stampCreatedAt item now) =
          some (⟨done ++ [item], max nk (n + 1)⟩, .vNum n) := by
        rw [hstamp]
        unfold idbPut
        rw [hn]
        simp [hfind, validKey, keyBump]
      have hstep : (putF true ⟨⟨done, nk⟩, ls⟩ item now).1 =
          ⟨⟨done ++ [item], max nk (n + 1)⟩, ls⟩ := by
        unfold putF
        simp [hput2]
      have hnodup' : (((done ++ [item]) ++ rest).map (fun x => objGet x "id")).Nodup := by
        rw [List.append_assoc]
        simpa using hnodup
      obtain ⟨nk', hrest⟩ := ih (done ++ [item]) (max nk (n + 1)) ls now
        (fun x hx => hgood x (by simp [hx])) hnodup'
      refine ⟨nk', ?_⟩
      rw [List.foldl_cons, hstep, hrest]
      simp

/-- C8: with the structured backend in use, `exportAll`, then clearing
all four collections, then `importAll` of the exported data restores
every collection's stored records exactly (hence as a set, ignoring
order), with every identifier preserved by the re-insertion — provided
each collection is in the shape the structured store maintains
(`GoodCol`: numeric pairwise-distinct ids, truthy `createdAt`). -/
theorem export_clear_import_roundtrip (a : AllState) (now : String)
    (hu : GoodCol a.users.idb.recs) (hv : GoodCol a.vehicles.idb.recs)
    (hr : GoodCol a.requests.idb.recs) (hm : GoodCol a.movements.idb.recs) :
    (importAllF true now (clearAllF true a) (exportAllF true a)).users.idb.recs =
      a.users.idb.recs ∧
    (importAllF true now (clearAllF true a) (exportAllF true a)).vehicles.idb.recs =
      a.vehicles.idb.recs ∧
    (importAllF true now (clearAllF true a) (exportAllF true a)).requests.idb.recs =
      a.requests.idb.recs ∧
    (importAllF true now (clearAllF true a) (exportAllF true a)).movements.idb.recs =
      a.movements.idb.recs := by
  obtain ⟨nku, hru⟩ := refill a.users.idb.recs [] a.users.idb.nextKey
    a.users.ls now hu.1 (by simpa using hu.2)
  obtain ⟨nkv, hrv⟩ := refill a.vehicles.idb.recs [] a.vehicles.idb.nextKey
    a.vehicles.ls now hv.1 (by simpa using hv.2)
  obtain ⟨nkr, hrr⟩ := refill a.requests.idb.recs [] a.requests.idb.nextKey
    a.requests.ls now hr.1 (by simpa using hr.2)
  obtain ⟨nkm, hrm⟩ := refill a.movements.idb.recs [] a.movements.idb.nextKey
    a.movements.ls now hm.1 (by simpa using hm.2)
  refine ⟨?_, ?_, ?_, ?_⟩
  · have e : (importAllF true now (clearAllF true a) (exportAllF true a)).users =
        a.users.idb.recs.foldl (fun st item => (putF true st item now).1)
          ⟨⟨[], a.users.idb.nextKey⟩, a.users.ls⟩ := rfl
    rw [e, hru]
    simp
  · have e : (importAllF true now (clearAllF true a) (exportAllF true a)).vehicles =
        a.vehicles.idb.recs.foldl (fun st item => (putF true st item now).1)
          ⟨⟨[], a.vehicles.idb.nextKey⟩, a.vehicles.ls⟩ := rfl
    rw [e, hrv]
    simp
  · have e : (importAllF true now (clearAllF true a) (exportAllF true a)).requests =
        a.requests.idb.recs.foldl (fun st item => (putF true st item now).1)
          ⟨⟨[], a.requests.idb.nextKey⟩, a.requests.ls⟩ := rfl
    rw [e, hrr]
    simp
  · have e : (importAllF true now (clearAllF true a) (exportAllF true a)).movements =
        a.movements.idb.recs.foldl (fun st item => (putF true st item now).1)
          ⟨⟨[], a.movements.idb.nextKey⟩, a.movements.ls⟩ := rfl
    rw [e, hrm]
    simp

/-- Witness for C8: one stored user record round-trips. -/
theorem export_clear_import_roundtrip_witness :
    GoodCol ([[("id", Val.vNum 1), ("createdAt", Val.vStr "t")]] : List Record) ∧
    (importAllF true "T"
      (clearAllF true ⟨⟨⟨[[("id", .vNum 1), ("createdAt", .vStr "t")]], 2⟩, []⟩,
        ⟨⟨[], 1⟩, []⟩, ⟨⟨[], 1⟩, []⟩, ⟨⟨[], 1⟩, []⟩⟩)
      (exportAllF true ⟨⟨⟨[[("id", .vNum 1), ("createdAt", .vStr "t")]], 2⟩, []⟩,
        ⟨⟨[], 1⟩, []⟩, ⟨⟨[], 1⟩, []⟩, ⟨⟨[], 1⟩, []⟩⟩)).users.idb.recs =
      [[("id", Val.vNum 1), ("createdAt", Val.vStr "t")]] :=
  ⟨⟨by decide, by decide⟩,
    (export_clear_import_roundtrip
      ⟨⟨⟨[[("id", .vNum 1), ("createdAt", .vStr "t")]], 2⟩, []⟩,
        ⟨⟨[], 1⟩, []⟩, ⟨⟨[], 1⟩, []⟩, ⟨⟨[], 1⟩, []⟩⟩ "T"
      ⟨by decide, by decide⟩ ⟨by decide, by decide⟩
      ⟨by decide, by decide⟩ ⟨by decide, by decide⟩).1⟩

end BitCarr
